import Mathlib

set_option linter.unusedVariables false

/-! Verification of the analytical core of the Projeto_MBA economic-indicator
repository: the periodicity classifier and forecaster/merger of
`src/dados/processadores/previsao.py`, and the event detector of
`src/dados/processadores/eventos.py`.  Dates are embedded as `ℤ` day numbers
(so a `datetime` subtraction's `.days` is plain subtraction) and values as
exact rationals. -/

/-- Sampling-cadence labels assigned by
`PrevisorSeriesTemporal._detectar_periodicidade` (strings in the source). -/
inductive Periodicidade
  | diaria | semanal | quinzenal | mensal | trimestral | semestral | anual | desconhecida
  deriving DecidableEq, Repr

/-- One iteration family of the delta loop in `_detectar_periodicidade`
(previsao.py lines 106-111): the Python loop `for i in range(1, min(10, len(df)))`
walks consecutive date pairs keeping the positive day differences; `passos`
counts the remaining iterations (at most 9, since `i` starts at 1 and stops
before `min(10, len(df))`). -/
def diffsLoop : ℤ → List ℤ → Nat → List ℤ
  | _, _, 0 => []
  | _, [], _ + 1 => []
  | anterior, d :: resto, passos + 1 =>
    (if 0 < d - anterior then [d - anterior] else []) ++ diffsLoop d resto passos

/-- `np.median` of an integer list, exact over `ℚ`: sort, take the middle
element, or the mean of the two middle elements when the length is even. -/
def mediana (l : List ℤ) : ℚ :=
  let s := l.insertionSort (· ≤ ·)
  if s.length % 2 = 1 then ((s.getD (s.length / 2) 0 : ℤ) : ℚ)
  else (((s.getD (s.length / 2 - 1) 0 : ℤ) : ℚ) + ((s.getD (s.length / 2) 0 : ℤ) : ℚ)) / 2

/-- The ordered threshold chain of `_detectar_periodicidade`
(previsao.py lines 120-134). -/
def rotularMediana (m : ℚ) : Periodicidade :=
  if m ≤ 1 then .diaria
  else if m ≤ 7 then .semanal
  else if m ≤ 15 then .quinzenal
  else if m ≤ 45 then .mensal
  else if m ≤ 100 then .trimestral
  else if m ≤ 200 then .semestral
  else .anual

/-- `PrevisorSeriesTemporal._detectar_periodicidade` (previsao.py lines
95-134) on the sorted date column: fewer than 2 points or no positive delta
yields `desconhecida`; otherwise the median of the positive deltas found by
the loop over `range(1, min(10, len(df)))` is mapped through the thresholds. -/
def detectarPeriodicidade (datas : List ℤ) : Periodicidade :=
  if datas.length < 2 then .desconhecida
  else
    let diffs := match datas with
      | [] => []
      | d :: resto => diffsLoop d resto 9
    if diffs = [] then .desconhecida
    else rotularMediana (mediana diffs)

/-- Modelled from the spec (claim C1 as stated): the classifier is claimed to
take "up to the first 10 consecutive positive day-deltas" of the sequence —
the first ten positive deltas — then to take their median and apply the same
thresholds, with `unknown` when fewer than 2 points or no positive delta. -/
def detectarPeriodicidadeReivindicada (datas : List ℤ) : Periodicidade :=
  if datas.length < 2 then .desconhecida
  else
    let deltas :=
      (((datas.zip datas.tail).map fun p => p.2 - p.1).filter fun d => decide (0 < d)).take 10
    if deltas = [] then .desconhecida
    else rotularMediana (mediana deltas)

/-- The amended reading of claim C1: the classifier takes the positive deltas
among the first 10 dates, i.e. at most 9 day-deltas, then median and the same
thresholds. -/
def detectarPeriodicidadeCorrigida (datas : List ℤ) : Periodicidade :=
  if datas.length < 2 then .desconhecida
  else
    let primeiras := datas.take 10
    let deltas :=
      ((primeiras.zip primeiras.tail).map fun p => p.2 - p.1).filter fun d => decide (0 < d)
    if deltas = [] then .desconhecida
    else rotularMediana (mediana deltas)

/-- The index loop of the source computes exactly the positive consecutive
deltas among the first `passos + 1` dates. -/
theorem diffsLoop_eq_zip (resto : List ℤ) : ∀ (anterior : ℤ) (passos : Nat),
    diffsLoop anterior resto passos =
      ((((anterior :: resto).take (passos + 1)).zip
          ((anterior :: resto).take (passos + 1)).tail).map fun p => p.2 - p.1).filter
        fun d => decide (0 < d) := by
  induction resto with
  | nil =>
    intro anterior passos
    cases passos <;> simp [diffsLoop]
  | cons d resto ih =>
    intro anterior passos
    cases passos with
    | zero => simp [diffsLoop]
    | succ k =>
      simp only [diffsLoop, List.take_succ_cons, List.tail_cons, List.zip_cons_cons,
        List.map_cons, List.filter_cons, ih d k]
      by_cases h : 0 < d - anterior <;> simp [h]

/-- Eleven dates whose first nine consecutive deltas are five 1-day gaps and
four 100-day gaps, and whose tenth delta is another 100-day gap. -/
def datasC1 : List ℤ := [0, 1, 2, 3, 4, 5, 105, 205, 305, 405, 505]

/-- C1 counterexample: on `datasC1` the code considers only the first nine
deltas (median 1 → daily) while the claim's "first 10 positive day-deltas"
reading yields median 50.5 → quarterly, so the claim as stated is false. -/
theorem c1_contraexemplo :
    detectarPeriodicidade datasC1 = .diaria ∧
    detectarPeriodicidadeReivindicada datasC1 = .trimestral ∧
    detectarPeriodicidade datasC1 ≠ detectarPeriodicidadeReivindicada datasC1 := by
  refine ⟨?_, ?_, ?_⟩ <;>
    norm_num [datasC1, detectarPeriodicidade, detectarPeriodicidadeReivindicada, diffsLoop,
      mediana, rotularMediana] <;> simp

/-- C1 (amended): the classifier takes the positive deltas among the first 10
dates (at most 9 deltas), computes their median and maps it through the
ordered thresholds ≤1 daily, ≤7 weekly, ≤15 biweekly, ≤45 monthly, ≤100
quarterly, ≤200 semiannual, else annual; fewer than 2 points or no positive
delta gives unknown; median deltas of exactly 1, 7, 45, 100, 200 days yield
daily, weekly, monthly, quarterly, semiannual respectively. -/
theorem c1_corrigida :
    (∀ datas : List ℤ, detectarPeriodicidade datas = detectarPeriodicidadeCorrigida datas) ∧
    detectarPeriodicidade [0, 1] = .diaria ∧
    detectarPeriodicidade [0, 7] = .semanal ∧
    detectarPeriodicidade [0, 45] = .mensal ∧
    detectarPeriodicidade [0, 100] = .trimestral ∧
    detectarPeriodicidade [0, 200] = .semestral ∧
    detectarPeriodicidade [0] = .desconhecida ∧
    detectarPeriodicidade [3, 3] = .desconhecida := by
  refine ⟨fun datas => ?_, ?_, ?_, ?_, ?_, ?_, ?_, ?_⟩
  case _ =>
    unfold detectarPeriodicidade detectarPeriodicidadeCorrigida
    cases datas with
    | nil => rfl
    | cons d resto =>
      have h10 : (9 : Nat) + 1 = 10 := rfl
      simp only [diffsLoop_eq_zip, h10]
  all_goals
    norm_num [detectarPeriodicidade, diffsLoop, mediana, rotularMediana]

/-- Event kinds emitted by `DetectorEventos` (strings in the source:
`pico`, `vale`, `aumento_abrupto`, `queda_abrupta`, `inversao_alta_baixa`,
`inversao_baixa_alta`). -/
inductive TipoEvento
  | pico | vale | aumentoAbrupto | quedaAbrupta | inversaoAltaBaixa | inversaoBaixaAlta
  deriving DecidableEq, Repr

/-- A detected event row (eventos.py appends dicts with keys `data`, `valor`,
`tipo`, `descricao`).  The `descricao` field is a display string formatted
from `valor`/`variacao`, read by nothing in the detector, and is not
modelled. -/
structure Evento where
  data : ℤ
  valor : ℚ
  tipo : TipoEvento
  deriving DecidableEq, Repr

/-- The input of `detectar_eventos`: rows of (date, value) plus the two
column-presence facts tested by the guard `df.empty or coluna_data not in
df.columns or coluna_valor not in df.columns` (eventos.py line 45). -/
structure DataFrameSerie where
  temColunaData : Bool
  temColunaValor : Bool
  linhas : List (ℤ × ℚ)
  deriving DecidableEq, Repr

/-- Key order of `df.sort_values(coluna_data)` on rows. -/
def linhaLe (a b : ℤ × ℚ) : Prop := a.1 ≤ b.1

instance : DecidableRel linhaLe := fun a b => Int.decLe a.1 b.1

instance : IsTotal (ℤ × ℚ) linhaLe := ⟨fun a b => Int.le_total a.1 b.1⟩

instance : IsTrans (ℤ × ℚ) linhaLe := ⟨fun _ _ _ h h2 => le_trans h h2⟩

/-- Key order of `df_eventos.sort_values('data')` on events. -/
def eventoLe (a b : Evento) : Prop := a.data ≤ b.data

instance : DecidableRel eventoLe := fun a b => Int.decLe a.data b.data

instance : IsTotal Evento eventoLe := ⟨fun a b => Int.le_total a.data b.data⟩

instance : IsTrans Evento eventoLe := ⟨fun _ _ _ h h2 => le_trans h h2⟩

/-- Rule 1, `DetectorEventos._detectar_picos_vales` (eventos.py lines
85-135), over the date-sorted rows.  Its threshold is
`df['desvio_padrao'].mean() * sensibilidade`, where `desvio_padrao` is the
12-sample (min 3) rolling standard deviation of the values (line 60); that
mean is a sum of square roots, irrational in general, so the embedding
abstracts the single statistic `df['desvio_padrao'].mean()` as the parameter
`desvio` and the theorems quantify over it.  (The `media_movel` column of
line 59 is read by no rule and is not modelled.) -/
def detectarPicosVales (sens desvio : ℚ) (l : List (ℤ × ℚ)) : List Evento :=
  if l.length < 3 then []
  else
    let limiar := desvio * sens
    ((l.zip l.tail).zip l.tail.tail).flatMap fun par =>
      let anterior := par.1.1
      let atual := par.1.2
      let posterior := par.2
      (if atual.2 > anterior.2 ∧ atual.2 > posterior.2 ∧
          atual.2 - max anterior.2 posterior.2 > limiar then
        [⟨atual.1, atual.2, .pico⟩] else []) ++
      (if atual.2 < anterior.2 ∧ atual.2 < posterior.2 ∧
          min anterior.2 posterior.2 - atual.2 > limiar then
        [⟨atual.1, atual.2, .vale⟩] else [])

/-- The `variacao_pct` column (eventos.py line 56): percent change between
consecutive values; `none` models the `NaN` of the first row and of a `0/0`
change.  The `±inf` of a zero value followed by a nonzero one is handled by
`temVariacaoInfinita`. -/
def variacaoPct (l : List (ℤ × ℚ)) : List (Option ℚ) :=
  none :: (l.zip l.tail).map fun par =>
    if par.1.2 = 0 then none else some ((par.2.2 - par.1.2) / par.1.2 * 100)

/-- True when some percent change is `±inf` (a zero value followed by a
nonzero one).  Then `df['variacao_pct'].abs().mean()` is `inf`, the rule-2
threshold is `inf` (or `NaN` when the sensitivity is 0, via `inf * 0`) and
every strict comparison against it in the loop is false, so rule 2 emits
nothing. -/
def temVariacaoInfinita (l : List (ℤ × ℚ)) : Bool :=
  (l.zip l.tail).any fun par => decide (par.1.2 = 0 ∧ par.2.2 ≠ 0)

/-- Rule 2, `DetectorEventos._detectar_mudancas_abruptas` (eventos.py lines
137-186): threshold `df['variacao_pct'].abs().mean() * sensibilidade * 2`
(the pandas mean skips `NaN` entries; an all-`NaN` column gives a `NaN`
threshold and hence no event), then `variacao > limiar` emits
`aumento_abrupto` and `variacao < -limiar` emits `queda_abrupta`, skipping
undefined changes. -/
def detectarMudancasAbruptas (sens : ℚ) (l : List (ℤ × ℚ)) : List Evento :=
  if l.length < 2 then []
  else if temVariacaoInfinita l then []
  else
    let definidas := (variacaoPct l).filterMap id
    if definidas.length = 0 then []
    else
      let limiar := (definidas.map fun v => |v|).sum / (definidas.length : ℚ) * sens * 2
      (l.zip (variacaoPct l)).flatMap fun par =>
        match par.2 with
        | none => []
        | some v =>
          if v > limiar then [⟨par.1.1, par.1.2, .aumentoAbrupto⟩]
          else if v < -limiar then [⟨par.1.1, par.1.2, .quedaAbrupta⟩]
          else []

/-- The `tendencia` column (eventos.py line 210): rolling mean of width
`janela` with `min_periods = janela`, so entry `i` is defined only once the
window is full (`i ≥ janela - 1`). -/
def tendenciaEm (l : List (ℤ × ℚ)) (janela : Nat) (i : Nat) : Option ℚ :=
  if janela ≤ i + 1 ∧ i < l.length then
    some ((((l.drop (i + 1 - janela)).take janela).map Prod.snd).sum / (janela : ℚ))
  else none

/-- One iteration of the reversal loop of `_detectar_tendencias` (eventos.py
lines 216-244).  The fold state is (`tendencia_anterior`, accumulated
events); the outer `Option` is the initial Python `None`, the inner one a
`NaN` trend delta (every comparison with `NaN` is false). -/
def passoTendencia (sens desvio : ℚ) (l : List (ℤ × ℚ)) (janela : Nat)
    (st : Option (Option ℚ) × List Evento) (i : Nat) : Option (Option ℚ) × List Evento :=
  if i < janela + 2 then st
  else
    let atual : Option ℚ :=
      match tendenciaEm l janela i, tendenciaEm l janela (i - janela) with
      | some a, some b => some (a - b)
      | _, _ => none
    match st.1 with
    | none => (some atual, st.2)
    | some anterior =>
      let novos :=
        match anterior, atual with
        | some x, some y =>
          if ((x > 0 ∧ y < 0) ∨ (x < 0 ∧ y > 0)) ∧ |y - x| > desvio * sens then
            [⟨(l.getD i (0, 0)).1, (l.getD i (0, 0)).2,
              if x > 0 then TipoEvento.inversaoAltaBaixa else TipoEvento.inversaoBaixaAlta⟩]
          else []
        | _, _ => []
      (some atual, st.2 ++ novos)

/-- Rule 3, `DetectorEventos._detectar_tendencias` (eventos.py lines
188-246): window `min(6, n / 3)`, the `NaN`-count guard of line 213, then
the fold of `passoTendencia` over `i = janela, ..., n - 1`.  As in rule 1,
`desvio` abstracts `df['desvio_padrao'].mean()`. -/
def detectarTendencias (sens desvio : ℚ) (l : List (ℤ × ℚ)) : List Evento :=
  if l.length < 6 then []
  else
    let janela := min 6 (l.length / 3)
    let contagemNaN :=
      ((List.range l.length).filter fun i => (tendenciaEm l janela i).isNone).length
    if (contagemNaN : ℤ) > (l.length : ℤ) - (janela : ℤ) - 1 then []
    else
      ((List.range' janela (l.length - janela)).foldl
        (passoTendencia sens desvio l janela) (none, [])).2

/-- The candidate-consuming loop of `_filtrar_eventos_proximos` (eventos.py
lines 270-293): `ultimo` is the last kept event (`eventos_filtrados[-1]`),
`mantidosRev` the earlier kept events in reverse order. -/
def filtrarLoop (diasMinimos : ℤ) : List Evento → Evento → List Evento → List Evento
  | mantidosRev, ultimo, [] => (ultimo :: mantidosRev).reverse
  | mantidosRev, ultimo, atual :: resto =>
    if atual.data - ultimo.data ≥ diasMinimos then
      filtrarLoop diasMinimos (ultimo :: mantidosRev) atual resto
    else if atual.tipo = ultimo.tipo then
      if atual.tipo = .pico ∨ atual.tipo = .vale then
        if (atual.tipo = .pico ∧ atual.valor > ultimo.valor) ∨
            (atual.tipo = .vale ∧ atual.valor < ultimo.valor) then
          filtrarLoop diasMinimos mantidosRev atual resto
        else
          filtrarLoop diasMinimos mantidosRev ultimo resto
      else filtrarLoop diasMinimos mantidosRev atual resto
    else if (atual.tipo = .aumentoAbrupto ∨ atual.tipo = .quedaAbrupta) ∧
        ¬(ultimo.tipo = .aumentoAbrupto ∨ ultimo.tipo = .quedaAbrupta) then
      filtrarLoop diasMinimos mantidosRev atual resto
    else filtrarLoop diasMinimos mantidosRev ultimo resto

/-- `DetectorEventos._filtrar_eventos_proximos` (eventos.py lines 248-295):
inputs of length ≤ 1 are returned unchanged; otherwise sort by date (stable),
always keep the first event and fold the keep/replace/discard policy over the
rest. -/
def filtrarEventosProximos (diasMinimos : ℤ) (eventos : List Evento) : List Evento :=
  if eventos.length ≤ 1 then eventos
  else
    match eventos.insertionSort eventoLe with
    | [] => []
    | e :: resto => filtrarLoop diasMinimos [] e resto

/-- `DetectorEventos.detectar_eventos` (eventos.py lines 31-83): the
empty/missing-column guard, sort by date, the three rules, then the stable
date sort of the candidates and the proximity filter with its default
30-day minimum spacing.  `desvio` abstracts `df['desvio_padrao'].mean()`
(see `detectarPicosVales`). -/
def detectarEventos (sens desvio : ℚ) (df : DataFrameSerie) : List Evento :=
  if df.linhas.isEmpty || !df.temColunaData || !df.temColunaValor then []
  else
    let l := df.linhas.insertionSort linhaLe
    let eventos := detectarPicosVales sens desvio l ++ detectarMudancasAbruptas sens l ++
      detectarTendencias sens desvio l
    if eventos.isEmpty then []
    else filtrarEventosProximos 30 (eventos.insertionSort eventoLe)

/-- The guard of `detectar_eventos` logs `"DataFrame vazio ou colunas não
encontradas"` exactly when it returns the empty frame. -/
def detectarEventosAvisa (df : DataFrameSerie) : Bool :=
  df.linhas.isEmpty || !df.temColunaData || !df.temColunaValor

/-- Every event kept by the filter loop comes from the earlier kept events,
the current last kept event, or the pending candidates. -/
theorem filtrarLoop_mem (dm : ℤ) :
    ∀ (resto mantidosRev : List Evento) (ultimo : Evento),
      ∀ e ∈ filtrarLoop dm mantidosRev ultimo resto,
        e ∈ mantidosRev ∨ e = ultimo ∨ e ∈ resto := by
  intro resto
  induction resto with
  | nil =>
    intro mantidosRev ultimo e he
    simp only [filtrarLoop, List.mem_reverse, List.mem_cons] at he
    tauto
  | cons atual resto ih =>
    intro mantidosRev ultimo e he
    unfold filtrarLoop at he
    split_ifs at he with h1 h2 h3 h4 h5
    all_goals
      rcases ih _ _ e he with h | h | h <;> simp_all [List.mem_cons] <;> tauto

/-- Gap invariant of the filter loop: when the pending candidates lie at or
after the last kept event (in date order) and the already-kept events satisfy
the spacing in reverse, all consecutive kept events end at least `dm` days
apart. -/
theorem filtrarLoop_chain (dm : ℤ) :
    ∀ (resto mantidosRev : List Evento) (ultimo : Evento),
      List.Pairwise eventoLe (ultimo :: resto) →
      List.Chain' (fun a b => b.data + dm ≤ a.data) (ultimo :: mantidosRev) →
      List.Chain' (fun a b => a.data + dm ≤ b.data) (filtrarLoop dm mantidosRev ultimo resto) := by
  intro resto
  induction resto with
  | nil =>
    intro mantidosRev ultimo _ hchain
    unfold filtrarLoop
    exact List.chain'_reverse.mpr hchain
  | cons atual resto ih =>
    intro mantidosRev ultimo hp hchain
    have hle : ultimo.data ≤ atual.data :=
      List.rel_of_pairwise_cons hp (List.mem_cons_self atual resto)
    have hpAtual : List.Pairwise eventoLe (atual :: resto) := hp.of_cons
    have hpUltimo : List.Pairwise eventoLe (ultimo :: resto) :=
      hp.sublist (List.Sublist.cons₂ ultimo (List.sublist_cons_self atual resto))
    have htroca : List.Chain' (fun a b => b.data + dm ≤ a.data) (atual :: mantidosRev) := by
      cases mantidosRev with
      | nil => simp
      | cons m mr =>
        rcases List.chain'_cons.mp hchain with ⟨hm, ht⟩
        exact List.chain'_cons.mpr ⟨by omega, ht⟩
    unfold filtrarLoop
    split_ifs with h1 h2 h3 h4 h5
    · exact ih (ultimo :: mantidosRev) atual hpAtual
        (List.chain'_cons.mpr ⟨by omega, hchain⟩)
    · exact ih mantidosRev atual hpAtual htroca
    · exact ih mantidosRev ultimo hpUltimo hchain
    · exact ih mantidosRev atual hpAtual htroca
    · exact ih mantidosRev atual hpAtual htroca
    · exact ih mantidosRev ultimo hpUltimo hchain

/-- Consecutive events kept by `_filtrar_eventos_proximos` are at least
`diasMinimos` days apart. -/
theorem filtrarEventosProximos_chain (dm : ℤ) (eventos : List Evento) :
    List.Chain' (fun a b => a.data + dm ≤ b.data) (filtrarEventosProximos dm eventos) := by
  unfold filtrarEventosProximos
  split_ifs with h
  · match eventos, h with
    | [], _ => simp
    | [e], _ => simp
  · cases hs : eventos.insertionSort eventoLe with
    | nil => simp
    | cons e resto =>
      apply filtrarLoop_chain
      · have hsorted := List.sorted_insertionSort eventoLe eventos
        rw [hs] at hsorted
        exact hsorted
      · simp

/-- The filter output is a subset of its input. -/
theorem filtrarEventosProximos_subset (dm : ℤ) (eventos : List Evento) :
    ∀ e ∈ filtrarEventosProximos dm eventos, e ∈ eventos := by
  unfold filtrarEventosProximos
  split_ifs with h
  · exact fun e he => he
  · cases hs : eventos.insertionSort eventoLe with
    | nil => simp
    | cons a resto =>
      intro e he
      have hperm := List.perm_insertionSort eventoLe eventos
      rw [hs] at hperm
      apply hperm.subset
      rcases filtrarLoop_mem dm resto [] a e he with h | h | h
      · simp at h
      · simp [h]
      · simp [h]

/-- Every peak/valley event carries the date (and value) of a row of the
series it was computed from. -/
theorem detectarPicosVales_mem (sens desvio : ℚ) (l : List (ℤ × ℚ)) :
    ∀ e ∈ detectarPicosVales sens desvio l, ∃ r ∈ l, e.data = r.1 := by
  unfold detectarPicosVales
  split_ifs with h
  · simp
  · intro e he
    rw [List.mem_flatMap] at he
    rcases he with ⟨⟨⟨ant, atu⟩, pos⟩, hpar, he⟩
    have h1 : (ant, atu) ∈ l.zip l.tail := (List.of_mem_zip hpar).1
    have hmem : atu ∈ l := List.mem_of_mem_tail (List.of_mem_zip h1).2
    rw [List.mem_append] at he
    rcases he with he | he <;> split_ifs at he <;>
      first
        | (rw [List.mem_singleton] at he; exact ⟨atu, hmem, by rw [he]⟩)
        | simp at he

/-- Every abrupt-change event carries the date of a row of the series. -/
theorem detectarMudancasAbruptas_mem (sens : ℚ) (l : List (ℤ × ℚ)) :
    ∀ e ∈ detectarMudancasAbruptas sens l, ∃ r ∈ l, e.data = r.1 := by
  unfold detectarMudancasAbruptas
  split_ifs with h1 h2
  · simp
  · simp
  · intro e he
    simp only [] at he
    split at he
    · simp at he
    rw [List.mem_flatMap] at he
    rcases he with ⟨⟨r, vOpc⟩, hpar, he⟩
    have hmem : r ∈ l := (List.of_mem_zip hpar).1
    rcases vOpc with _ | v
    · simp at he
    · simp only at he
      split_ifs at he <;>
        first
          | (rw [List.mem_singleton] at he; exact ⟨r, hmem, by rw [he]⟩)
          | simp at he

/-- Folding the reversal-loop step preserves "every accumulated event has the
date of a series row", for in-range indices. -/
theorem passoTendencia_fold_mem (sens desvio : ℚ) (l : List (ℤ × ℚ)) (janela : Nat) :
    ∀ (indices : List Nat) (st : Option (Option ℚ) × List Evento),
      (∀ i ∈ indices, i < l.length) →
      (∀ e ∈ st.2, ∃ r ∈ l, e.data = r.1) →
      ∀ e ∈ (indices.foldl (passoTendencia sens desvio l janela) st).2,
        ∃ r ∈ l, e.data = r.1 := by
  intro indices
  induction indices with
  | nil => intro st _ hst e he; exact hst e he
  | cons i indices ih =>
    intro st hidx hst e he
    rw [List.foldl_cons] at he
    refine ih (passoTendencia sens desvio l janela st i)
      (fun j hj => hidx j (List.mem_cons_of_mem i hj)) ?_ e he
    intro f hf
    have hi : i < l.length := hidx i (List.mem_cons_self i indices)
    have hget : l.getD i (0, 0) ∈ l := by
      rw [List.getD_eq_getElem l (0, 0) hi]
      exact List.getElem_mem hi
    unfold passoTendencia at hf
    split_ifs at hf with hskip
    · exact hst f hf
    · rcases hst1 : st.1 with _ | anterior <;> rw [hst1] at hf
      · exact hst f hf
      · simp only at hf
        rw [List.mem_append] at hf
        rcases hf with hf | hf
        · exact hst f hf
        · rcases hant : anterior with _ | x <;>
            rcases hatu : (match tendenciaEm l janela i, tendenciaEm l janela (i - janela) with
              | some a, some b => some (a - b)
              | _, _ => none : Option ℚ) with _ | y <;>
            rw [hant, hatu] at hf <;> simp only at hf
          · simp at hf
          · simp at hf
          · simp at hf
          · split_ifs at hf
            · rw [List.mem_singleton] at hf
              exact ⟨l.getD i (0, 0), hget, by rw [hf]⟩
            · rw [List.mem_singleton] at hf
              exact ⟨l.getD i (0, 0), hget, by rw [hf]⟩
            · simp at hf

/-- Every trend-reversal event carries the date of a row of the series. -/
theorem detectarTendencias_mem (sens desvio : ℚ) (l : List (ℤ × ℚ)) :
    ∀ e ∈ detectarTendencias sens desvio l, ∃ r ∈ l, e.data = r.1 := by
  unfold detectarTendencias
  split_ifs with h1
  · simp
  · intro e he
    simp only [] at he
    split at he
    · simp at he
    · refine passoTendencia_fold_mem sens desvio l _ _ _ ?_ (by simp) e he
      intro i hi
      rw [List.mem_range'_1] at hi
      omega

/-- Every event reported by `detectar_eventos` carries the date (and value)
of a row of the input frame. -/
theorem detectarEventos_mem (sens desvio : ℚ) (df : DataFrameSerie) :
    ∀ e ∈ detectarEventos sens desvio df, ∃ r ∈ df.linhas, e.data = r.1 := by
  unfold detectarEventos
  split_ifs with h1
  · simp
  · intro e he
    simp only [] at he
    split at he
    · simp at he
    · have he2 := filtrarEventosProximos_subset 30 _ e he
      rw [List.mem_insertionSort] at he2
      have hrow : ∃ r ∈ df.linhas.insertionSort linhaLe, e.data = r.1 := by
        rcases List.mem_append.mp he2 with h12 | htend
        · rcases List.mem_append.mp h12 with hp | hm
          · exact detectarPicosVales_mem sens desvio _ e hp
          · exact detectarMudancasAbruptas_mem sens _ e hm
        · exact detectarTendencias_mem sens desvio _ e htend
      rcases hrow with ⟨r, hr, hdata⟩
      exact ⟨r, (List.perm_insertionSort linhaLe df.linhas).subset hr, hdata⟩

/-- C6: any two events retained by the proximity filter (minimum spacing 30
days) have dates at least 30 days apart — in particular no two retained
events of the same kind are less than 30 days apart; candidates closer than
that were merged into the kept event by the extremal/most-recent replacement
branches or discarded. -/
theorem c6_invarianteProximidade (eventos : List Evento) :
    List.Pairwise (fun a b => a.data + 30 ≤ b.data) (filtrarEventosProximos 30 eventos) ∧
    List.Pairwise (fun a b => a.tipo = b.tipo → a.data + 30 ≤ b.data)
      (filtrarEventosProximos 30 eventos) := by
  have hchain := filtrarEventosProximos_chain 30 eventos
  letI : IsTrans Evento (fun a b => a.data + 30 ≤ b.data) := ⟨fun a b c h1 h2 => by omega⟩
  have hpair : List.Pairwise (fun a b => a.data + 30 ≤ b.data)
      (filtrarEventosProximos 30 eventos) := List.chain'_iff_pairwise.mp hchain
  exact ⟨hpair, hpair.imp fun hR => fun _ => hR⟩

/-- C8: on an empty frame or one lacking the date or value column,
`detectar_eventos` warns and returns the empty event frame (and, being a
total function, raises nothing). -/
theorem c8_guardaEntrada (sens desvio : ℚ) (df : DataFrameSerie)
    (h : df.linhas = [] ∨ df.temColunaData = false ∨ df.temColunaValor = false) :
    detectarEventos sens desvio df = [] ∧ detectarEventosAvisa df = true := by
  unfold detectarEventos detectarEventosAvisa
  rcases h with h | h | h <;> simp [h]

/-- Witness for C8 at the empty series. -/
theorem c8_testemunha :
    detectarEventos 1 0 ⟨true, true, []⟩ = [] ∧ detectarEventosAvisa ⟨true, true, []⟩ = true :=
  c8_guardaEntrada 1 0 ⟨true, true, []⟩ (Or.inl rfl)

/-- C9: the dates of the events reported by `detectar_eventos` are
non-decreasing, and each one is a date of the input series. -/
theorem c9_saidaOrdenadaNoDominio (sens desvio : ℚ) (df : DataFrameSerie) :
    List.Chain' (fun a b => a.data ≤ b.data) (detectarEventos sens desvio df) ∧
    (∀ e ∈ detectarEventos sens desvio df, e.data ∈ df.linhas.map Prod.fst) := by
  constructor
  · unfold detectarEventos
    split_ifs with h1
    · simp
    · simp only []
      split
      · simp
      · exact (filtrarEventosProximos_chain 30 _).imp fun a b h => by omega
  · intro e he
    rcases detectarEventos_mem sens desvio df e he with ⟨r, hr, hdata⟩
    rw [hdata]
    exact List.mem_map_of_mem Prod.fst hr

/-- Concrete run backing the C2 counterexample: on values 10, 50, 10 at days
0, 10, 20 with sensitivity 0 (and 23 standing for the nonnegative rolling
deviation statistic, which sensitivity 0 multiplies away) the detector
returns a single sharp-increase event, not a peak: at sensitivity 0 the
abrupt-change threshold is 0, so rule 2 fires at the 400% rise and the 80%
fall, and the proximity filter replaces the co-dated peak by the abrupt
event and then discards the fall 10 days later. -/
theorem c2_avaliacao :
    detectarEventos 0 23 ⟨true, true, [(0, 10), (10, 50), (20, 10)]⟩ =
      [⟨10, 50, .aumentoAbrupto⟩] := by
  norm_num [detectarEventos, detectarPicosVales, detectarMudancasAbruptas, detectarTendencias,
    variacaoPct, temVariacaoInfinita, filtrarEventosProximos, filtrarLoop, linhaLe, eventoLe,
    List.insertionSort, List.orderedInsert]
  simp

/-- C2 counterexample: it is not true that every 3-point series with values
10, 50, 10 at strictly ascending dates yields, at sensitivity 0, exactly one
event of kind peak at the middle date — at dates 0, 10, 20 the single output
event is a sharp increase. -/
theorem c2_contraexemplo :
    ¬ (∀ (d0 d1 d2 : ℤ) (desvio : ℚ), d0 < d1 → d1 < d2 → 0 ≤ desvio →
        (detectarEventos 0 desvio ⟨true, true, [(d0, 10), (d1, 50), (d2, 10)]⟩).length = 1 ∧
        ∀ e ∈ detectarEventos 0 desvio ⟨true, true, [(d0, 10), (d1, 50), (d2, 10)]⟩,
          e.tipo = TipoEvento.pico ∧ e.data = d1) := by
  intro h
  have h2 := (h 0 10 20 23 (by norm_num) (by norm_num) (by norm_num)).2
  rw [c2_avaliacao] at h2
  have h3 := h2 ⟨10, 50, .aumentoAbrupto⟩ (List.mem_singleton_self _)
  exact absurd h3.1 (by simp)

/-- C2 (amended): a 3-point series with values 10, 50, 10 at strictly
ascending dates and sensitivity 0 yields exactly one event — a sharp
increase at the middle date — when the last date is within 30 days of the
middle one, and the sharp increase at the middle date followed by a sharp
decrease at the last date otherwise; the candidate peak at the middle date
is always replaced by the co-dated abrupt event. -/
theorem c2_corrigida (d0 d1 d2 : ℤ) (desvio : ℚ) (h01 : d0 < d1) (h12 : d1 < d2)
    (hdes : 0 ≤ desvio) :
    detectarEventos 0 desvio ⟨true, true, [(d0, 10), (d1, 50), (d2, 10)]⟩ =
      if 30 ≤ d2 - d1 then
        [⟨d1, 50, .aumentoAbrupto⟩, ⟨d2, 10, .quedaAbrupta⟩]
      else [⟨d1, 50, .aumentoAbrupto⟩] := by
  have h01' : d0 ≤ d1 := le_of_lt h01
  have h12' : d1 ≤ d2 := le_of_lt h12
  have h02' : d0 ≤ d2 := le_trans h01' h12'
  by_cases hg : (30:ℤ) ≤ d2 - d1 <;>
    norm_num [detectarEventos, detectarPicosVales, detectarMudancasAbruptas, detectarTendencias,
      variacaoPct, temVariacaoInfinita, filtrarEventosProximos, filtrarLoop, linhaLe, eventoLe,
      List.insertionSort, List.orderedInsert, h01', h12', h02', hg, sub_self, mul_zero] <;>
    simp

/-- Witness for the amended C2 at dates 0, 10, 50 and deviation statistic
23. -/
theorem c2_corrigida_testemunha :
    detectarEventos 0 23 ⟨true, true, [(0, 10), (10, 50), (50, 10)]⟩ =
      [⟨10, 50, .aumentoAbrupto⟩, ⟨50, 10, .quedaAbrupta⟩] := by
  have h := c2_corrigida 0 10 50 23 (by norm_num) (by norm_num) (by norm_num)
  simpa using h

/-- Abstraction of a fitted Prophet model (the spec's `Forecastor` interface:
any compliant seasonal-regression engine).  A fitted model retains the
training date index (`history_dates`, which `make_future_dataframe` extends)
and yields a mean and lower/upper interval bound for any requested date
(`predict`). -/
structure Modelo where
  datasTreino : List ℤ
  prevePonto : ℤ → ℚ × ℚ × ℚ

/-- A seasonality added by `Prophet.add_seasonality`: name, period, Fourier
order. -/
structure Sazonalidade where
  nome : String
  periodo : ℚ
  ordemFourier : ℕ
  deriving DecidableEq, Repr

/-- The Prophet configuration assembled by `treinar` (previsao.py lines
154-170): `interval_width`, the two seasonality flags and the
cadence-conditional extra seasonalities. -/
structure ConfigProphet where
  intervalWidth : ℚ
  weeklySeasonality : Bool
  yearlySeasonality : Bool
  sazonalidades : List Sazonalidade
  deriving DecidableEq, Repr

/-- The state of a `PrevisorSeriesTemporal` session (previsao.py lines
44-50): the constructor parameters plus `modelo`, `dados_preparados` and
`periodicidade`, each `None` until set. -/
structure Sessao where
  intervaloConfianca : ℚ
  horizonteAnos : ℕ
  sazonalidadeSemanal : Bool
  sazonalidadeAnual : Bool
  modelo : Option Modelo
  dadosPreparados : Option (List (ℤ × ℚ))
  periodicidade : Option Periodicidade

/-- The `add_seasonality` calls of `treinar` (previsao.py lines 163-170),
conditioned on the detected cadence. -/
def configurarSazonalidades (p : Option Periodicidade) : List Sazonalidade :=
  (if p = some .diaria ∨ p = some .semanal then [⟨"weekly", 7, 3⟩] else []) ++
  (if p = some .diaria ∨ p = some .semanal ∨ p = some .quinzenal ∨ p = some .mensal then
    [⟨"yearly", 365.25, 5⟩] else []) ++
  (if p = some .trimestral ∨ p = some .semestral then [⟨"yearly", 4, 3⟩] else [])

/-- `PrevisorSeriesTemporal.treinar` (previsao.py lines 136-181).  The
external Prophet engine is abstracted by `prophetDisponivel` (the
module-load flag `PROPHET_AVAILABLE` of lines 17-23: when the import failed,
`Prophet` is `None` and calling it at line 156 raises) and by `ajustar`, the
construction-and-fit step, whose `none` result models a fit exception
(non-convergence, too little data).  Both failure paths land in the `except`
of lines 178-181, which logs the error, clears `self.modelo` and returns
`False`. -/
def treinar (prophetDisponivel : Bool)
    (ajustar : ConfigProphet → List (ℤ × ℚ) → Option Modelo)
    (s : Sessao) (dfOpc : Option (List (ℤ × ℚ))) : Bool × Sessao :=
  let df := match dfOpc with
    | none => s.dadosPreparados
    | some d => some d
  match df with
  | none => (false, s)
  | some linhas =>
    if linhas.isEmpty then (false, s)
    else if !prophetDisponivel then (false, { s with modelo := none })
    else
      match ajustar ⟨s.intervaloConfianca, s.sazonalidadeSemanal, s.sazonalidadeAnual,
        configurarSazonalidades s.periodicidade⟩ linhas with
      | none => (false, { s with modelo := none })
      | some m => (true, { s with modelo := some m })

/-- The pandas frequency strings returned by `_obter_frequencia_pandas`
(previsao.py lines 233-255): `D`, `W`, `2W`, `M`, `Q`, `6M`, `Y`. -/
inductive FreqPandas
  | D | W | W2 | M | Q | M6 | Y
  deriving DecidableEq, Repr

/-- `PrevisorSeriesTemporal._obter_frequencia_pandas` (previsao.py lines
233-255); an unknown or unset cadence falls back to monthly. -/
def obterFrequenciaPandas (s : Sessao) : FreqPandas :=
  match s.periodicidade with
  | some .diaria => .D
  | some .semanal => .W
  | some .quinzenal => .W2
  | some .mensal => .M
  | some .trimestral => .Q
  | some .semestral => .M6
  | some .anual => .Y
  | _ => .M

/-- The default horizon of `prever` (previsao.py lines 199-215):
`horizonte_anos` times the samples per year of the detected cadence,
defaulting to monthly. -/
def periodosPadrao (s : Sessao) : ℕ :=
  match s.periodicidade with
  | some .diaria => s.horizonteAnos * 365
  | some .semanal => s.horizonteAnos * 52
  | some .quinzenal => s.horizonteAnos * 26
  | some .mensal => s.horizonteAnos * 12
  | some .trimestral => s.horizonteAnos * 4
  | some .semestral => s.horizonteAnos * 2
  | some .anual => s.horizonteAnos
  | _ => s.horizonteAnos * 12

/-- Modelled from the spec: one cadence step of each pandas frequency, in
days — "a contiguous future date index at the cadence's native frequency
starting immediately after the last training date".  The calendar
frequencies (month, quarter, half-year, year) are idealised as fixed
positive day counts, since `ℤ` day numbers carry no calendar. -/
def passoDias : FreqPandas → ℤ
  | .D => 1
  | .W => 7
  | .W2 => 14
  | .M => 30
  | .Q => 91
  | .M6 => 182
  | .Y => 365

/-- Modelled from the spec: the future index of Prophet's
`make_future_dataframe` — `periodos` dates following the last training
date, one cadence step apart. -/
def datasFuturas (ultima : ℤ) (f : FreqPandas) (periodos : ℕ) : List ℤ :=
  (List.range periodos).map fun k : ℕ => ultima + ((k : ℤ) + 1) * passoDias f

/-- The pandas `.max()` of a date column.  The 0 default is only reached on
an empty frame, which every caller guards against. -/
def maxData : List ℤ → ℤ
  | [] => 0
  | d :: resto => resto.foldl max d

/-- A row of the Prophet forecast frame: the columns `ds`, `yhat`,
`yhat_lower`, `yhat_upper` read by `obter_dados_previsao`. -/
structure LinhaPrevisao where
  ds : ℤ
  yhat : ℚ
  yhatLower : ℚ
  yhatUpper : ℚ
  deriving DecidableEq, Repr

/-- `PrevisorSeriesTemporal.prever` (previsao.py lines 183-231): `None`
with a logged warning when no model is fitted; otherwise the horizon
defaults by cadence, `make_future_dataframe` yields the training dates
followed by `periodos` future dates at the cadence frequency (modelled from
the spec, see `datasFuturas`), and `predict` fills the per-date mean and
bounds. -/
def prever (s : Sessao) (periodosOpc : Option ℕ) : Option (List LinhaPrevisao) :=
  match s.modelo with
  | none => none
  | some m =>
    let periodos := match periodosOpc with
      | none => periodosPadrao s
      | some p => p
    let datas := m.datasTreino ++
      datasFuturas (maxData m.datasTreino) (obterFrequenciaPandas s) periodos
    some (datas.map fun d =>
      ⟨d, (m.prevePonto d).1, (m.prevePonto d).2.1, (m.prevePonto d).2.2⟩)

/-- `prever` logs the warning `"Modelo não treinado"` exactly when no model
is fitted (previsao.py lines 193-195). -/
def preverAvisa (s : Sessao) : Bool := s.modelo.isNone

/-- The label column of `obter_dados_previsao`: the strings `'histórico'`
and `'previsão'`. -/
inductive TipoLinha
  | historico | previsao
  deriving DecidableEq, Repr

/-- A row of the output frame of `obter_dados_previsao`: `data`, `valor`,
`limite_inferior`, `limite_superior`, `tipo`. -/
structure LinhaSaida where
  data : ℤ
  valor : ℚ
  limiteInferior : ℚ
  limiteSuperior : ℚ
  tipo : TipoLinha
  deriving DecidableEq, Repr

/-- Key order of the final `df_saida.sort_values('data')`. -/
def saidaLe (a b : LinhaSaida) : Prop := a.data ≤ b.data

instance : DecidableRel saidaLe := fun a b => Int.decLe a.data b.data

instance : IsTotal LinhaSaida saidaLe := ⟨fun a b => Int.le_total a.data b.data⟩

instance : IsTrans LinhaSaida saidaLe := ⟨fun _ _ _ h h2 => le_trans h h2⟩

/-- `PrevisorSeriesTemporal.obter_dados_previsao` (previsao.py lines
257-318): take the four forecast columns; when prepared data exist, label a
row `histórico` iff its date is at most the last prepared date and — when
`incluir_historico` — overwrite `valor` with the prepared value on rows
whose date matches a prepared row (the left merge on `data`, modelled by
`find?` for the unique-date frames the pipeline produces); when not
`incluir_historico`, keep only the `previsão` rows; finally sort by date
(stable).  Without prepared data every row is labelled `previsão`. -/
def obterDadosPrevisao (s : Sessao) (previsaoOpc : Option (List LinhaPrevisao))
    (incluirHistorico : Bool) : List LinhaSaida :=
  let previsao := match previsaoOpc with
    | none => prever s none
    | some p => some p
  match previsao with
  | none => []
  | some linhas =>
    if linhas.isEmpty then []
    else
      let saida : List LinhaSaida :=
        linhas.map fun r => ⟨r.ds, r.yhat, r.yhatLower, r.yhatUpper, .previsao⟩
      match s.dadosPreparados with
      | some hist =>
        if !hist.isEmpty then
          let ultimaDataHistorico := maxData (hist.map Prod.fst)
          let comTipo := saida.map fun r =>
            { r with tipo := if r.data ≤ ultimaDataHistorico then .historico else .previsao }
          let comValor :=
            if incluirHistorico then
              comTipo.map fun r =>
                match hist.find? fun par => decide (par.1 = r.data) with
                | some par => { r with valor := par.2 }
                | none => r
            else comTipo
          let filtrada :=
            if !incluirHistorico then
              comValor.filter fun r => decide (r.tipo = TipoLinha.previsao)
            else comValor
          filtrada.insertionSort saidaLe
        else (saida.map fun r => { r with tipo := TipoLinha.previsao }).insertionSort saidaLe
      | none => (saida.map fun r => { r with tipo := TipoLinha.previsao }).insertionSort saidaLe

/-- `obter_dados_previsao` logs `"Sem dados de previsão disponíveis"`
exactly when neither a forecast argument nor a fitted model provides
rows. -/
def obterDadosPrevisaoAvisa (s : Sessao) (previsaoOpc : Option (List LinhaPrevisao)) : Bool :=
  match previsaoOpc with
  | none => (prever s none).isNone
  | some p => p.isEmpty

/-- A freshly constructed session (constructor defaults of previsao.py lines
31-50), shared by the forecaster witnesses. -/
def sessaoNova : Sessao :=
  ⟨95 / 100, 2, false, true, none, none, none⟩

/-- C3: `prever` on a session with no fitted model (no successful `treinar`
has stored one) returns the empty result `None` with its logged warning, for
any requested horizon; being a total function of the state, it raises
nothing. -/
theorem c3_preverSemModelo (s : Sessao) (periodosOpc : Option ℕ) (h : s.modelo = none) :
    prever s periodosOpc = none ∧ preverAvisa s = true := by
  unfold prever preverAvisa
  rw [h]
  simp

/-- Witness for C3 on a fresh session. -/
theorem c3_testemunha : prever sessaoNova none = none ∧ preverAvisa sessaoNova = true :=
  c3_preverSemModelo sessaoNova none rfl

/-- C10: with the Prophet import unavailable (`PROPHET_AVAILABLE = False`,
so `Prophet` is `None` and calling it raises a `TypeError`), `treinar` on
any non-empty prepared frame takes the `except` path: it returns `False`
and leaves the session's fitted model cleared, whatever fit engine would
have been used; no exception escapes. -/
theorem c10_treinarSemProphet (ajustar : ConfigProphet → List (ℤ × ℚ) → Option Modelo)
    (s : Sessao) (linhas : List (ℤ × ℚ)) (h : linhas ≠ []) :
    (treinar false ajustar s (some linhas)).1 = false ∧
    (treinar false ajustar s (some linhas)).2.modelo = none := by
  unfold treinar
  rcases linhas with _ | ⟨r, resto⟩
  · exact absurd rfl h
  · simp

/-- Witness for C10 on a one-row frame. -/
theorem c10_testemunha :
    (treinar false (fun _ _ => none) sessaoNova (some [(0, 1)])).1 = false ∧
    (treinar false (fun _ _ => none) sessaoNova (some [(0, 1)])).2.modelo = none :=
  c10_treinarSemProphet (fun _ _ => none) sessaoNova [(0, 1)] (by simp)

/-- `foldl max` dominates its initial value. -/
theorem foldl_max_ge_inicial : ∀ (l : List ℤ) (a : ℤ), a ≤ l.foldl max a := by
  intro l
  induction l with
  | nil => intro a; exact le_refl a
  | cons d resto ih => intro a; exact le_trans (le_max_left a d) (ih (max a d))

/-- `foldl max` dominates every list element. -/
theorem foldl_max_ge_mem : ∀ (l : List ℤ) (a x : ℤ), x ∈ l → x ≤ l.foldl max a := by
  intro l
  induction l with
  | nil => intro a x hx; simp at hx
  | cons d resto ih =>
    intro a x hx
    rcases List.mem_cons.mp hx with h | h
    · subst h
      exact le_trans (le_max_right a x) (foldl_max_ge_inicial resto (max a x))
    · exact ih (max a d) x h

/-- Every date of a column is at most its `.max()`. -/
theorem le_maxData (l : List ℤ) : ∀ x ∈ l, x ≤ maxData l := by
  cases l with
  | nil => intro x hx; simp at hx
  | cons d resto =>
    intro x hx
    rcases List.mem_cons.mp hx with h | h
    · subst h; exact foldl_max_ge_inicial resto x
    · exact foldl_max_ge_mem resto d x h

/-- Every pandas frequency advances by at least one day. -/
theorem passoDias_pos (f : FreqPandas) : 0 < passoDias f := by
  cases f <;> norm_num [passoDias]

/-- Future dates lie strictly after the last training date. -/
theorem mem_datasFuturas {ultima : ℤ} {f : FreqPandas} {n : ℕ} {x : ℤ}
    (hx : x ∈ datasFuturas ultima f n) : ultima < x := by
  unfold datasFuturas at hx
  rcases List.mem_map.mp hx with ⟨k, _, hk⟩
  have hp := passoDias_pos f
  have hk0 : (0:ℤ) < (k : ℤ) + 1 := by omega
  have hk1 : (0:ℤ) < ((k : ℤ) + 1) * passoDias f := mul_pos hk0 hp
  omega

/-- The future index is strictly increasing. -/
theorem datasFuturas_pairwise (ultima : ℤ) (f : FreqPandas) (n : ℕ) :
    List.Pairwise (· < ·) (datasFuturas ultima f n) := by
  unfold datasFuturas
  have hp := passoDias_pos f
  rw [List.pairwise_map]
  refine List.Pairwise.imp ?_ (List.pairwise_lt_range n)
  intro a b hab
  have hab' : ((a : ℤ) + 1) < ((b : ℤ) + 1) := by
    have : (a : ℤ) < (b : ℤ) := by exact_mod_cast hab
    omega
  have := mul_lt_mul_of_pos_right hab' hp
  omega

/-- On a session with a fitted model, `prever` returns the per-date forecast
over the training dates followed by the future index. -/
theorem prever_eq (s : Sessao) (m : Modelo) (h1 : s.modelo = some m) (n : ℕ) :
    prever s (some n) = some ((m.datasTreino ++
      datasFuturas (maxData m.datasTreino) (obterFrequenciaPandas s) n).map fun d =>
        (⟨d, (m.prevePonto d).1, (m.prevePonto d).2.1, (m.prevePonto d).2.2⟩ :
          LinhaPrevisao)) := by
  unfold prever
  rw [h1]

/-- The output row the merge of `obter_dados_previsao` produces for date
`d`: the model mean is overwritten by the prepared value when `d` matches a
prepared row, the bounds always stay the model's, and the label compares `d`
with the last prepared date. -/
def linhaMesclada (hist : List (ℤ × ℚ)) (m : Modelo) (ultima d : ℤ) : LinhaSaida where
  data := d
  valor :=
    match hist.find? fun par => decide (par.1 = d) with
    | some par => par.2
    | none => (m.prevePonto d).1
  limiteInferior := (m.prevePonto d).2.1
  limiteSuperior := (m.prevePonto d).2.2
  tipo := if d ≤ ultima then .historico else .previsao

/-- On a session holding a non-empty prepared series, merging a forecast
frame of the pipeline's shape (`keep_historical` true) yields exactly the
per-date merged rows, sorted by date. -/
theorem obter_pipeline_eq (s : Sessao) (hist : List (ℤ × ℚ)) (m : Modelo)
    (datasPrev : List ℤ)
    (h2 : s.dadosPreparados = some hist) (hne : hist ≠ []) (hdne : datasPrev ≠ []) :
    obterDadosPrevisao s
        (some (datasPrev.map fun d =>
          (⟨d, (m.prevePonto d).1, (m.prevePonto d).2.1, (m.prevePonto d).2.2⟩ :
            LinhaPrevisao)))
        true =
      (datasPrev.map (linhaMesclada hist m (maxData (hist.map Prod.fst)))).insertionSort
        saidaLe := by
  unfold obterDadosPrevisao
  rw [h2]
  have hvazio : (datasPrev.map fun d =>
      (⟨d, (m.prevePonto d).1, (m.prevePonto d).2.1, (m.prevePonto d).2.2⟩ :
        LinhaPrevisao)).isEmpty = false := by
    rcases datasPrev with _ | ⟨d, resto⟩
    · exact absurd rfl hdne
    · rfl
  have hhist : hist.isEmpty = false := by
    rcases hist with _ | ⟨r, resto⟩
    · exact absurd rfl hne
    · rfl
  simp only [hvazio, hhist, Bool.false_eq_true, if_false, Bool.not_false, if_true,
    List.map_map]
  congr 1
  apply List.map_congr_left
  intro d _
  simp only [Function.comp_apply, linhaMesclada]
  rcases hf : hist.find? fun par => decide (par.1 = d) with _ | par <;> rw [hf]

/-- For a date of the prepared series the merged row is labelled historical
and carries the prepared value of that date. -/
theorem linhaMesclada_historico (hist : List (ℤ × ℚ)) (m : Modelo) (d : ℤ)
    (hd : d ∈ hist.map Prod.fst) :
    (linhaMesclada hist m (maxData (hist.map Prod.fst)) d).tipo = TipoLinha.historico ∧
    (d, (linhaMesclada hist m (maxData (hist.map Prod.fst)) d).valor) ∈ hist := by
  have hle : d ≤ maxData (hist.map Prod.fst) := le_maxData _ d hd
  have hsome : (hist.find? fun par => decide (par.1 = d)).isSome := by
    rw [List.find?_isSome]
    rcases List.mem_map.mp hd with ⟨par, hpar, hfst⟩
    exact ⟨par, hpar, by simp [hfst]⟩
  rcases hf : hist.find? fun par => decide (par.1 = d) with _ | par
  · rw [hf] at hsome; simp at hsome
  · have hmem := List.mem_of_find?_eq_some hf
    have hfst : par.1 = d := by
      have := List.find?_some hf
      simpa using this
    constructor
    · simp [linhaMesclada, hle]
    · simp only [linhaMesclada, hf]
      rw [← hfst]
      simpa using hmem

/-- For a date beyond the last prepared date the merged row is labelled
forecast and keeps the model mean. -/
theorem linhaMesclada_previsao (hist : List (ℤ × ℚ)) (m : Modelo) (d : ℤ)
    (hd : maxData (hist.map Prod.fst) < d) :
    (linhaMesclada hist m (maxData (hist.map Prod.fst)) d).tipo = TipoLinha.previsao ∧
    (linhaMesclada hist m (maxData (hist.map Prod.fst)) d).valor = (m.prevePonto d).1 := by
  have hnle : ¬ d ≤ maxData (hist.map Prod.fst) := by omega
  have hnone : (hist.find? fun par => decide (par.1 = d)) = none := by
    rcases hf : hist.find? fun par => decide (par.1 = d) with _ | par
    · exact hf
    · have hmem := List.mem_of_find?_eq_some hf
      have hfst : par.1 = d := by simpa using List.find?_some hf
      have : d ≤ maxData (hist.map Prod.fst) :=
        le_maxData _ d (hfst ▸ List.mem_map_of_mem Prod.fst hmem)
      omega
  constructor
  · simp [linhaMesclada, hnle]
  · simp [linhaMesclada, hnone]

/-- C4 (round-trip law of the merge): on a session trained on a non-empty
prepared series with unique ascending dates, every row of the merged output
(`incluir_historico` true) of a forecast produced by `prever` whose date is
at most the last historical date carries exactly the historical value of
that date. -/
theorem c4_mesclagemExata (s : Sessao) (hist : List (ℤ × ℚ)) (m : Modelo)
    (linhas : List LinhaPrevisao) (n : ℕ)
    (h1 : s.modelo = some m) (h2 : s.dadosPreparados = some hist)
    (h3 : m.datasTreino = hist.map Prod.fst) (hne : hist ≠ [])
    (hasc : List.Chain' (fun a b => a.1 < b.1) hist)
    (hprev : prever s (some n) = some linhas) :
    ∀ r ∈ obterDadosPrevisao s (some linhas) true,
      r.data ≤ maxData (hist.map Prod.fst) → (r.data, r.valor) ∈ hist := by
  rw [prever_eq s m h1 n, h3, Option.some.injEq] at hprev
  have hdne : hist.map Prod.fst ++
      datasFuturas (maxData (hist.map Prod.fst)) (obterFrequenciaPandas s) n ≠ [] := by
    rcases hist with _ | ⟨r, resto⟩
    · exact absurd rfl hne
    · simp
  intro r hr hle
  rw [← hprev, obter_pipeline_eq s hist m _ h2 hne hdne, List.mem_insertionSort] at hr
  rcases List.mem_map.mp hr with ⟨d, hd, hrow⟩
  rcases List.mem_append.mp hd with hdh | hdf
  · have := (linhaMesclada_historico hist m d hdh).2
    rw [hrow] at this
    have hdata : r.data = d := by rw [← hrow]; rfl
    rw [hdata]
    exact this
  · have hgt := mem_datasFuturas hdf
    have hdata : r.data = d := by rw [← hrow]; rfl
    omega

/-- Concrete instance shared by the merger theorems: one historical row
(day 0, value 5) and a model fitted on day 0 predicting mean 1 with bounds
0 and 2 for every date, monthly cadence. -/
def histW : List (ℤ × ℚ) := [(0, 5)]

/-- The fitted model of the concrete instance. -/
def modeloW : Modelo := ⟨[0], fun _ => (1, 0, 2)⟩

/-- The trained session of the concrete instance. -/
def sessaoW : Sessao := ⟨95 / 100, 2, false, true, some modeloW, some histW, some .mensal⟩

/-- The forecast `prever sessaoW (some 1)` produces. -/
def linhasW : List LinhaPrevisao := [⟨0, 1, 0, 2⟩, ⟨30, 1, 0, 2⟩]

/-- `prever` on the concrete instance. -/
theorem preverW_aval : prever sessaoW (some 1) = some linhasW := rfl

/-- The merge on the concrete instance: the historical row keeps the model
bounds 0 and 2 while its mean is overwritten with the value 5. -/
theorem obterW_aval : obterDadosPrevisao sessaoW (some linhasW) true =
    [⟨0, 5, 0, 2, .historico⟩, ⟨30, 1, 0, 2, .previsao⟩] := rfl

/-- Witness for C4 at the concrete instance: the merged historical row
(day 0) carries the historical pair (0, 5). -/
theorem c4_testemunha : ((0:ℤ), (5:ℚ)) ∈ histW :=
  c4_mesclagemExata sessaoW histW modeloW linhasW 1 rfl rfl rfl (by simp [histW])
    (by simp [histW]) preverW_aval ⟨0, 5, 0, 2, .historico⟩
    (by rw [obterW_aval]; simp) (by norm_num [histW, maxData])

/-- C5 counterexample: in the merged output of the concrete instance the
day-0 row is labelled historical with value 5, yet its lower bound is the
model's 0 and its upper bound the model's 2 — the interval does not collapse
to the historical value. -/
theorem c5_contraexemplo :
    prever sessaoW (some 1) = some linhasW ∧
    (⟨0, 5, 0, 2, .historico⟩ : LinhaSaida) ∈ obterDadosPrevisao sessaoW (some linhasW) true ∧
    (⟨0, 5, 0, 2, .historico⟩ : LinhaSaida).tipo = TipoLinha.historico ∧
    (⟨0, 5, 0, 2, .historico⟩ : LinhaSaida).limiteInferior ≠
      (⟨0, 5, 0, 2, .historico⟩ : LinhaSaida).valor := by
  refine ⟨preverW_aval, ?_, rfl, by norm_num⟩
  rw [obterW_aval]
  simp

/-- C5 (amended): in the merged output of a trained session each row keeps
the model's lower and upper bounds of its date; a historical-labelled row
has its mean overwritten with the prepared value of its date, while a
forecast-labelled row keeps the model mean. -/
theorem c5_corrigida (s : Sessao) (hist : List (ℤ × ℚ)) (m : Modelo)
    (linhas : List LinhaPrevisao) (n : ℕ)
    (h1 : s.modelo = some m) (h2 : s.dadosPreparados = some hist)
    (h3 : m.datasTreino = hist.map Prod.fst) (hne : hist ≠ [])
    (hasc : List.Chain' (fun a b => a.1 < b.1) hist)
    (hprev : prever s (some n) = some linhas) :
    ∀ r ∈ obterDadosPrevisao s (some linhas) true,
      ∃ src ∈ linhas, r.data = src.ds ∧
        r.limiteInferior = src.yhatLower ∧ r.limiteSuperior = src.yhatUpper ∧
        ((r.tipo = TipoLinha.historico ∧ (r.data, r.valor) ∈ hist) ∨
         (r.tipo = TipoLinha.previsao ∧ r.valor = src.yhat)) := by
  rw [prever_eq s m h1 n, h3, Option.some.injEq] at hprev
  have hdne : hist.map Prod.fst ++
      datasFuturas (maxData (hist.map Prod.fst)) (obterFrequenciaPandas s) n ≠ [] := by
    rcases hist with _ | ⟨r, resto⟩
    · exact absurd rfl hne
    · simp
  subst hprev
  intro r hr
  rw [obter_pipeline_eq s hist m _ h2 hne hdne, List.mem_insertionSort] at hr
  rcases List.mem_map.mp hr with ⟨d, hd, hrow⟩
  refine ⟨⟨d, (m.prevePonto d).1, (m.prevePonto d).2.1, (m.prevePonto d).2.2⟩,
    List.mem_map_of_mem _ hd, ?_, ?_, ?_, ?_⟩
  · rw [← hrow]; rfl
  · rw [← hrow]; rfl
  · rw [← hrow]; rfl
  · rcases List.mem_append.mp hd with hdh | hdf
    · left
      have h := linhaMesclada_historico hist m d hdh
      rw [hrow] at h
      have hdata : r.data = d := by rw [← hrow]; rfl
      exact ⟨h.1, by rw [hdata]; exact hdata ▸ h.2⟩
    · right
      have h := linhaMesclada_previsao hist m d (mem_datasFuturas hdf)
      rw [hrow] at h
      exact h

/-- Witness for the amended C5 at the concrete instance's historical row. -/
theorem c5_corrigida_testemunha :
    ∃ src ∈ linhasW, ((⟨0, 5, 0, 2, .historico⟩ : LinhaSaida)).data = src.ds ∧
      ((⟨0, 5, 0, 2, .historico⟩ : LinhaSaida)).limiteInferior = src.yhatLower ∧
      ((⟨0, 5, 0, 2, .historico⟩ : LinhaSaida)).limiteSuperior = src.yhatUpper ∧
      ((((⟨0, 5, 0, 2, .historico⟩ : LinhaSaida)).tipo = TipoLinha.historico ∧
        (((⟨0, 5, 0, 2, .historico⟩ : LinhaSaida)).data,
          ((⟨0, 5, 0, 2, .historico⟩ : LinhaSaida)).valor) ∈ histW) ∨
       (((⟨0, 5, 0, 2, .historico⟩ : LinhaSaida)).tipo = TipoLinha.previsao ∧
        ((⟨0, 5, 0, 2, .historico⟩ : LinhaSaida)).valor = src.yhat)) :=
  c5_corrigida sessaoW histW modeloW linhasW 1 rfl rfl rfl (by simp [histW])
    (by simp [histW]) preverW_aval ⟨0, 5, 0, 2, .historico⟩ (by rw [obterW_aval]; simp)

/-- C7 (forecast continuity): on a session trained on a non-empty prepared
series with ascending dates and a supported detected cadence, the date of
the first forecast-labelled row of the merged output is the last historical
date plus exactly one cadence step. -/
theorem c7_continuidade (s : Sessao) (hist : List (ℤ × ℚ)) (m : Modelo)
    (linhas : List LinhaPrevisao) (c : Periodicidade) (n : ℕ)
    (h1 : s.modelo = some m) (h2 : s.dadosPreparados = some hist)
    (h3 : m.datasTreino = hist.map Prod.fst) (hne : hist ≠ [])
    (hasc : List.Chain' (fun a b => a.1 < b.1) hist)
    (hper : s.periodicidade = some c) (hc : c ≠ Periodicidade.desconhecida)
    (hn : 1 ≤ n)
    (hprev : prever s (some n) = some linhas) :
    (((obterDadosPrevisao s (some linhas) true).filter fun r =>
        decide (r.tipo = TipoLinha.previsao)).map LinhaSaida.data).head? =
      some (maxData (hist.map Prod.fst) + passoDias (obterFrequenciaPandas s)) := by
  rw [prever_eq s m h1 n, h3, Option.some.injEq] at hprev
  subst hprev
  have hdne : hist.map Prod.fst ++
      datasFuturas (maxData (hist.map Prod.fst)) (obterFrequenciaPandas s) n ≠ [] := by
    rcases hist with _ | ⟨r, resto⟩
    · exact absurd rfl hne
    · simp
  rw [obter_pipeline_eq s hist m _ h2 hne hdne]
  have hpairDatas : List.Pairwise (· ≤ ·) (hist.map Prod.fst ++
      datasFuturas (maxData (hist.map Prod.fst)) (obterFrequenciaPandas s) n) := by
    rw [List.pairwise_append]
    refine ⟨?_, ?_, ?_⟩
    · have hchain : List.Chain' (· < ·) (hist.map Prod.fst) :=
        (List.chain'_map Prod.fst).mpr hasc
      exact (List.chain'_iff_pairwise.mp hchain).imp le_of_lt
    · exact (datasFuturas_pairwise _ _ n).imp le_of_lt
    · intro a ha b hb
      have ha2 := le_maxData _ a ha
      have hb2 := mem_datasFuturas hb
      omega
  have hsorted : List.Sorted saidaLe ((hist.map Prod.fst ++
      datasFuturas (maxData (hist.map Prod.fst)) (obterFrequenciaPandas s) n).map
      (linhaMesclada hist m (maxData (hist.map Prod.fst)))) := by
    refine List.Pairwise.map _ ?_ hpairDatas
    intro a b hab
    exact hab
  rw [List.Sorted.insertionSort_eq hsorted, List.map_append, List.filter_append]
  have hfilterHist : (((hist.map Prod.fst).map
      (linhaMesclada hist m (maxData (hist.map Prod.fst)))).filter
      fun r => decide (r.tipo = TipoLinha.previsao)) = [] := by
    rw [List.filter_eq_nil_iff]
    intro r hr
    rcases List.mem_map.mp hr with ⟨d, hd, hrow⟩
    have h := (linhaMesclada_historico hist m d hd).1
    rw [hrow] at h
    simp [h]
  have hfilterFut : (((datasFuturas (maxData (hist.map Prod.fst))
        (obterFrequenciaPandas s) n).map
      (linhaMesclada hist m (maxData (hist.map Prod.fst)))).filter
      fun r => decide (r.tipo = TipoLinha.previsao)) =
      (datasFuturas (maxData (hist.map Prod.fst)) (obterFrequenciaPandas s) n).map
        (linhaMesclada hist m (maxData (hist.map Prod.fst))) := by
    rw [List.filter_eq_self]
    intro r hr
    rcases List.mem_map.mp hr with ⟨d, hd, hrow⟩
    have h := (linhaMesclada_previsao hist m d (mem_datasFuturas hd)).1
    rw [hrow] at h
    simp [h]
  rw [hfilterHist, hfilterFut, List.nil_append, List.map_map]
  have hdataMap : ((datasFuturas (maxData (hist.map Prod.fst))
        (obterFrequenciaPandas s) n).map
      (LinhaSaida.data ∘ linhaMesclada hist m (maxData (hist.map Prod.fst)))) =
      datasFuturas (maxData (hist.map Prod.fst)) (obterFrequenciaPandas s) n := by
    have h := List.map_congr_left (l := datasFuturas (maxData (hist.map Prod.fst))
      (obterFrequenciaPandas s) n)
      (f := LinhaSaida.data ∘ linhaMesclada hist m (maxData (hist.map Prod.fst)))
      (g := id) fun d _ => rfl
    rw [h, List.map_id]
  rw [hdataMap]
  rcases n with _ | nAnt
  · omega
  · unfold datasFuturas
    rw [List.range_succ_eq_map]
    simp

/-- Witness for C7 at the concrete monthly instance: the first
forecast-labelled row is dated one 30-day month step after day 0. -/
theorem c7_testemunha :
    (((obterDadosPrevisao sessaoW (some linhasW) true).filter fun r =>
        decide (r.tipo = TipoLinha.previsao)).map LinhaSaida.data).head? = some 30 := by
  have h := c7_continuidade sessaoW histW modeloW linhasW .mensal 1 rfl rfl rfl
    (by simp [histW]) (by simp [histW]) rfl (by simp) (le_refl 1) preverW_aval
  simpa [histW, maxData, passoDias, obterFrequenciaPandas, sessaoW] using h
